import Mathlib

/-!
Verification development for the Pixelink camera sample programs.

The main subject is the bounded-buffer frame-capture pipeline of
`imageWriter.cpp`: a producer thread (`sourceThread`) pulls frames from the
camera into a fixed pool of 16 pre-allocated buffers and hands them to a
consumer thread (`sinkThread`) over a shared queue, while the main thread
polls for a user keypress; the overall run state is one of the four
`RUNTIME_STATUS` values.  We embed the two thread bodies and the main
thread's stop check as a step function over an explicit pipeline state,
driven by a list of environment events (the results of the blocking
`PxLGetNextFrame` calls, file-I/O outcomes, and the user keypress); a run
is a fold of the step function over such an event trace.  An event is one
mutex-granularity critical section of the corresponding thread, so a trace
is one sequentially consistent interleaving of the three threads.

The frame-callback gap accounting of `countImagesViaCallback.cpp` and the
camera configuration-file writer/reader of `captureOEM/src/helpers.cpp`
are embedded separately below.
-/

/-- Modulus of the `U32` variables of the samples (`s_tail`,
`s_expectedFrameNumber`, `s_frameSize`, `uFrameNumber`, ...). -/
def U32 : Nat := 2 ^ 32

namespace ImageWriter

/-- `RUNTIME_STATUS` (imageWriter.cpp lines 42-49). -/
inductive Status where
  | running
  | userStopped
  | sinkOverrun
  | error
deriving DecidableEq, Repr

/-- Control position of `sourceThread`: before the initial acquire of its
step 1, inside the streaming loop of its step 2, or exited. -/
inductive SrcPhase where
  | awaitingFirst
  | streaming
  | stopped
deriving DecidableEq, Repr

/-- Control position of `sinkThread`: before the `fopen` of its step 1,
inside the drain loop of its step 2, or exited. -/
inductive SinkPhase where
  | notOpened
  | draining
  | stopped
deriving DecidableEq, Repr

/-- `BUFFER_SIZE` (line 27): the pool holds 16 frame buffers. -/
def BUFFER_SIZE : Nat := 16

/-- `MAX_IMAGES` (line 76): frames per file before the sink rewinds. -/
def MAX_IMAGES : Nat := 32

/-- `MAX_IMAGE_SIZE` (line 39): initial value of `s_frameSize`. -/
def MAX_IMAGE_SIZE : Nat := 25 * 1024 * 1024

/-- The shared pipeline state of imageWriter.cpp: the globals `s_status`,
`s_tail`, `s_expectedFrameNumber`, `s_frameSize` and `s_frameQueue`
(a FIFO of pool slot indices), the control position of each thread, and
the sink's file state (the `ftell` position in bytes, `numFramesInFile`,
and the high-water extent of the file).  In addition, `acquires` counts
the `PxLGetNextFrame` calls issued so far and `recordsWritten` logs the
byte length of every complete frame record the sink has `fwrite`-en. -/
structure PState where
  status : Status
  srcPhase : SrcPhase
  sinkPhase : SinkPhase
  tail : Nat
  expected : Nat
  frameSize : Nat
  queue : List Nat
  acquires : Nat
  recordsWritten : List Nat
  filePos : Nat
  framesInFile : Nat
  fileExtent : Nat
deriving DecidableEq, Repr

/-- Result of one blocking `PxLGetNextFrame` call: failure, or success
together with the descriptor fields the sample reads (`uFrameNumber`,
`Roi.fWidth`, `Roi.fHeight`; the dimensions are integral, so the float
product `fWidth * fHeight` cast to `U32` is `(w * h) % U32`). -/
inductive AcqRes where
  | fail
  | ok (frameNumber w h : Nat)
deriving DecidableEq, Repr

/-- One scheduling event: the source thread runs its next critical
section (with `r` the result of the acquire it performs, if any), the
sink thread runs its next critical section (with `ok` the outcome of the
`fopen`/`fwrite` it performs, if any), or the main thread's keypress
check fires. -/
inductive Ev where
  | srcAcq (r : AcqRes)
  | sinkIo (ok : Bool)
  | userStop
deriving DecidableEq, Repr

/-- One step of `sourceThread` (imageWriter.cpp lines 174-241).
In `awaitingFirst` it performs the initial acquire into slot `s_tail`
without advancing the cursor; failure sets `STATUS_ERROR` and exits
(lines 183-188), success seeds `s_expectedFrameNumber` and `s_frameSize`
from the descriptor (lines 190-193) and enters the streaming loop.
In `streaming` (lines 199-236) it re-checks the status, advances the
cursor, performs the blocking acquire, rolls the cursor back and
continues on failure (lines 204-210), and on success updates the
expected-sequence tracker (lines 215-219), trips `STATUS_SINK_OVERRUN`
when the queue holds at least `BUFFER_SIZE - 3` entries (lines 224-230),
and otherwise pushes the filled slot (line 235). -/
def sourceStep (s : PState) (r : AcqRes) : PState :=
  match s.srcPhase with
  | .stopped => s
  | .awaitingFirst =>
      match r with
      | .fail =>
          { s with acquires := s.acquires + 1, status := .error, srcPhase := .stopped }
      | .ok n w h =>
          { s with acquires := s.acquires + 1,
                   expected := (n + 1) % U32,
                   frameSize := (w * h) % U32,
                   srcPhase := .streaming }
  | .streaming =>
      if s.status = .running then
        let slot := s.tail
        let t1 := (s.tail + 1) % BUFFER_SIZE
        match r with
        | .fail =>
            { s with acquires := s.acquires + 1,
                     tail := (t1 + (BUFFER_SIZE - 1)) % BUFFER_SIZE }
        | .ok n _ _ =>
            let s1 := { s with acquires := s.acquires + 1, tail := t1,
                               expected := (n + 1) % U32 }
            if BUFFER_SIZE - 3 ≤ s1.queue.length then
              { s1 with status := .sinkOverrun, srcPhase := .stopped }
            else
              { s1 with queue := s1.queue ++ [slot] }
      else
        { s with srcPhase := .stopped }

/-- One step of `sinkThread` (imageWriter.cpp lines 244-301).
In `notOpened` it performs the `fopen`; failure sets `STATUS_ERROR` and
exits (lines 255-260).  In `draining` it re-checks the status (exiting
once it is no longer `STATUS_RUNNING`), spins if the queue is empty, and
otherwise pops the front slot and writes `s_frameSize` bytes; a short
write sets `STATUS_ERROR` and exits (lines 280-285), and a full write
advances the file position, rewinding it to the start of the file once
`numFramesInFile` reaches `MAX_IMAGES` (lines 290-294). -/
def sinkStep (s : PState) (ok : Bool) : PState :=
  match s.sinkPhase with
  | .stopped => s
  | .notOpened =>
      if ok then { s with sinkPhase := .draining }
      else { s with status := .error, sinkPhase := .stopped }
  | .draining =>
      if s.status = .running then
        match s.queue with
        | [] => s
        | _ :: rest =>
            if ok then
              let pos1 := s.filePos + s.frameSize
              let s1 := { s with queue := rest,
                                 recordsWritten := s.recordsWritten ++ [s.frameSize],
                                 filePos := pos1,
                                 fileExtent := max s.fileExtent pos1,
                                 framesInFile := s.framesInFile + 1 }
              if MAX_IMAGES ≤ s1.framesInFile then
                { s1 with filePos := 0, framesInFile := 0 }
              else s1
            else
              { s with queue := rest, status := .error, sinkPhase := .stopped }
      else
        { s with sinkPhase := .stopped }

/-- One firing of the main thread's keypress check (imageWriter.cpp lines
146-153): while the status is still `STATUS_RUNNING`, a keypress sets
`STATUS_USER_STOPPED`. -/
def userStopStep (s : PState) : PState :=
  if s.status = .running then { s with status := .userStopped } else s

/-- Interleaved small-step semantics of the pipeline. -/
def step (s : PState) : Ev → PState
  | .srcAcq r => sourceStep s r
  | .sinkIo ok => sinkStep s ok
  | .userStop => userStopStep s

/-- Run over an event trace. -/
def run (s : PState) : List Ev → PState
  | [] => s
  | e :: t => run (step s e) t

/-- Pipeline state right after main's step 4 has set
`s_status = STATUS_RUNNING` and started the two threads (`s_tail = 0`
per line 96, the statics zero-initialized, `s_frameSize` still
`MAX_IMAGE_SIZE`). -/
def state0 : PState :=
  { status := .running, srcPhase := .awaitingFirst, sinkPhase := .notOpened,
    tail := 0, expected := 0, frameSize := MAX_IMAGE_SIZE, queue := [],
    acquires := 0, recordsWritten := [], filePos := 0, framesInFile := 0,
    fileExtent := 0 }

/-- File-position bookkeeping of `sinkThread` steps 2.1-2.2 in isolation
(imageWriter.cpp lines 279-294): after `k` successful frame writes of
`fs` bytes each, the triple (file position, `numFramesInFile`, high-water
file size). -/
def sinkFileState (fs : Nat) : Nat → Nat × Nat × Nat
  | 0 => (0, 0, 0)
  | k + 1 =>
      let p := sinkFileState fs k
      let pos1 := p.1 + fs
      let ext1 := max p.2.2 pos1
      if MAX_IMAGES ≤ p.2.1 + 1 then (0, 0, ext1) else (pos1, p.2.1 + 1, ext1)

/-- The top-level control paths of imageWriter's `main` (lines 84-172):
camera enumeration fails (`numCameras != 1` or an enumeration error),
`PxLInitializeEx` fails, starting the stream fails, the pipeline stops
during the initial 500 ms settling wait, or the pipeline runs and ends
with the given terminal status. -/
inductive MainOutcome where
  | enumerationFailed
  | cameraOpenFailed
  | streamStartFailed
  | earlyStop (final : Status)
  | ran (final : Status)
deriving DecidableEq, Repr

/-- Process exit code of imageWriter's `main` for each top-level control
path.  `main` contains no `return` statement on any path (the error
paths `goto Cleanup` and then fall off the closing brace), and flowing
off the end of `main` yields exit code 0 in C++; so every path exits 0,
even though the sample defines `GENERAL_ERROR 1` under the comment
"non-zero error codes" and every sibling sample returns it from `main`
on its error paths. -/
def mainExitCode : MainOutcome → Nat
  | .enumerationFailed => 0
  | .cameraOpenFailed => 0
  | .streamStartFailed => 0
  | .earlyStop _ => 0
  | .ran _ => 0

end ImageWriter

namespace CountImages

/-- The globals of countImagesViaCallback.cpp shared between the main
thread and the frame callback (lines 26-32): `gFrameCount`,
`gLostFrameCount` (an `int`, deliberately signed: a negative value
indicates a duplicated frame), `gExpectedFrameNum`, and
`gReceivedFirstFrame`. -/
structure CbState where
  receivedFirstFrame : Bool
  expectedFrameNum : Nat
  frameCount : Nat
  lostFrameCount : Int
deriving DecidableEq, Repr

/-- `FrameCallbackFunction` (countImagesViaCallback.cpp lines 36-74),
as a function of the one descriptor field it reads, `uFrameNumber`.
On the first frame it seeds `gExpectedFrameNum`; it always increments
`gFrameCount`; a frame older than expected decrements `gLostFrameCount`
and leaves `gExpectedFrameNum` unchanged (lines 54-60), and otherwise
the gap `uFrameNumber - gExpectedFrameNum` (a `U32` difference, exact
here because the branch guarantees `uFrameNumber >= gExpectedFrameNum`)
is added to `gLostFrameCount` and the tracker becomes
`uFrameNumber + 1` (lines 61-69). -/
def frameCallbackFunction (s : CbState) (uFrameNumber : Nat) : CbState :=
  let s :=
    if s.receivedFirstFrame then s
    else { s with receivedFirstFrame := true, expectedFrameNum := uFrameNumber }
  let s := { s with frameCount := s.frameCount + 1 }
  if uFrameNumber < s.expectedFrameNum then
    { s with lostFrameCount := s.lostFrameCount - 1 }
  else
    { s with
        lostFrameCount :=
          s.lostFrameCount + ((uFrameNumber - s.expectedFrameNum : Nat) : Int),
        expectedFrameNum := (uFrameNumber + 1) % U32 }

/-- The initial values of the globals (lines 26-32). -/
def cbState0 : CbState :=
  { receivedFirstFrame := false, expectedFrameNum := 0, frameCount := 0,
    lostFrameCount := 0 }

/-- The callback invoked on a sequence of device frame numbers. -/
def runCallback (s : CbState) (ns : List Nat) : CbState :=
  ns.foldl frameCallbackFunction s

end CountImages

namespace ConfigFile

/-- `PXL_CONFIG_FILE_MAGIC_NUMBER` (helpers.cpp line 23). -/
def MAGIC : Nat := 0x41513879

/-- Modelled from the spec: the `PxLCamera` wrapper used by
`WriteConfigFile` and `ReadConfigFile` — its header `camera.h` and the
vendor `PxLGetFeature`/`PxLSetFeature` API are not among the repository
sources.  Following §6, a camera is a finite table of features
`0 .. total - 1` (`FEATURES_TOTAL`), each with a supported flag, a
manually-settable flag (`manualSupported`) and a fixed parameter count
(`numParametersSupported`); `mc` is `FEATURE_MEMORY_CHANNEL` and `gpio`
is `FEATURE_GPIO`.  An ordinary feature stores one flags word and one
list of parameter values (`store`); the multi-line GPIO feature stores,
per physical line, a flags word and the parameter values that follow
the leading line-selector parameter (`gpioStore`).  Parameter values
are the 32-bit patterns of the file's `float`s: neither the writer nor
the reader performs arithmetic on them, so they pass through as opaque
words. -/
structure Camera where
  total : Nat
  mc : Nat
  gpio : Nat
  supported : Nat → Bool
  manual : Nat → Bool
  pcount : Nat → Nat
  numGpios : Nat
  store : Nat → Nat × List Nat
  gpioStore : Nat → Nat × List Nat

/-- Modelled from the spec: `PxLGetFeature` on the GPIO feature returns
the configuration of the line selected by the preset first parameter
(helpers.cpp lines 218-229), with the line number as first returned
parameter. -/
def Camera.getGpio (c : Camera) (line : Nat) : Nat × List Nat :=
  ((c.gpioStore line).1, line :: (c.gpioStore line).2)

/-- The fixed-header feature record of the config file (`struct
FeatureData`, helpers.cpp lines 26-32); `params` holds the first
parameter stored inside the struct together with the `nParams - 1`
extra floats that immediately follow it in the file. -/
structure FeatureData where
  featureId : Nat
  flags : Nat
  nParams : Nat
  params : List Nat
deriving DecidableEq, Repr

/-- The record(s) WriteConfigFile step 4 emits for one feature id:
nothing if the feature is unsupported or is `FEATURE_MEMORY_CHANNEL`
(helpers.cpp lines 207-209); one record per GPIO line for
`FEATURE_GPIO` (lines 213-231); otherwise a single record read in one
go (lines 233-246).  `nParams` is `numParametersSupported` and the
values are the camera's current ones. -/
def writeFeature (c : Camera) (f : Nat) : List FeatureData :=
  if c.supported f = false then []
  else if f = c.mc then []
  else if f = c.gpio then
    (List.range c.numGpios).map fun i =>
      { featureId := f, flags := (c.getGpio (i + 1)).1,
        nParams := c.pcount f, params := (c.getGpio (i + 1)).2 }
  else
    [{ featureId := f, flags := (c.store f).1,
       nParams := c.pcount f, params := (c.store f).2 }]

/-- All records of WriteConfigFile step 4, which loops from
`FEATURES_TOTAL - 1` down to 0 (helpers.cpp line 205). -/
def writeRecords (c : Camera) : List FeatureData :=
  ((List.range c.total).reverse.map (writeFeature c)).flatten

/-- The per-feature contribution to the feature count WriteConfigFile
step 1 precomputes (helpers.cpp lines 160-178): one per supported
feature other than `FEATURE_MEMORY_CHANNEL`, except `numGpios` records
for `FEATURE_GPIO`. -/
def countFeature (c : Camera) (f : Nat) : Nat :=
  if c.supported f = false then 0
  else if f = c.mc then 0
  else if f = c.gpio then c.numGpios
  else 1

/-- `nSupported` of WriteConfigFile step 1. -/
def nSupported (c : Camera) : Nat :=
  ((List.range c.total).map (countFeature c)).sum

/-- One record as laid out in the buffer: the three header words
followed by the `nParams` parameter words (helpers.cpp lines
220-229 and 235-245). -/
def encRec (r : FeatureData) : List Nat :=
  r.featureId :: r.flags :: r.nParams :: r.params

/-- The buffer WriteConfigFile builds and writes (steps 3-6): the magic
number, a zero descriptor count, the feature count, then the records. -/
def writeConfigFile (c : Camera) : List Nat :=
  MAGIC :: 0 :: nSupported c :: ((writeRecords c).map encRec).flatten

/-- ReadConfigFile step 4's walk over the buffer: reads `n` records,
each a `FeatureData` header followed by `nParams - 1` extra parameter
words, i.e. `3 + nParams` words in all (helpers.cpp lines 313-332).
The C++ code performs no bounds check, so a malformed file makes it
read past the buffer (and for `nParams = 0` its pointer arithmetic
underflows); the model stops on a truncated buffer and is used only at
`nParams ≥ 1`, which is all the writer ever produces. -/
def readRecs : Nat → List Nat → List FeatureData
  | 0, _ => []
  | n + 1, buf =>
      match buf with
      | fid :: fl :: np :: rest =>
          { featureId := fid, flags := fl, nParams := np,
            params := rest.take np } :: readRecs n (rest.drop np)
      | _ => []

/-- Modelled from the spec: `PxLSetFeature` with `k` parameters
replaces the first `k` parameter values of the feature (the camera
keeps any further ones — ReadConfigFile passes the smaller count and
comments that a camera with more parameters accommodates); for the
GPIO feature the first parameter selects the physical line and the
remaining `k - 1` configure that line. -/
def setFeature (c : Camera) (f flags k : Nat) (ps : List Nat) : Camera :=
  if f = c.gpio then
    match ps with
    | [] => c
    | line :: rest =>
        { c with gpioStore := fun l =>
            if l = line then
              (flags, rest.take (k - 1) ++ ((c.gpioStore line).2).drop (k - 1))
            else c.gpioStore l }
  else
    { c with store := fun g =>
        if g = f then (flags, ps.take k ++ ((c.store f).2).drop k)
        else c.store g }

/-- One `PxLSetFeature` call ReadConfigFile issues, as logged data. -/
structure SetCall where
  featureId : Nat
  flags : Nat
  nParams : Nat
  params : List Nat
deriving DecidableEq, Repr

/-- ReadConfigFile step 4's body for one parsed record (helpers.cpp
lines 315-331): skip `FEATURE_MEMORY_CHANNEL` and features without
manual support; otherwise set the feature, passing the smaller of the
recorded and the camera's parameter counts.  The set is also logged. -/
def applyRec (s : Camera × List SetCall) (r : FeatureData) : Camera × List SetCall :=
  let k := min r.nParams (s.1.pcount r.featureId)
  if r.featureId ≠ s.1.mc ∧ s.1.manual r.featureId = true then
    (setFeature s.1 r.featureId r.flags k r.params,
     s.2 ++ [{ featureId := r.featureId, flags := r.flags, nParams := k,
               params := r.params }])
  else s

/-- ReadConfigFile (helpers.cpp lines 273-335) on an in-memory buffer:
checks the magic number and the zero descriptor count, then parses the
announced number of records and applies each to the camera.  Returns
the final camera and the log of issued sets, or `none` where the C++
function returns `false`. -/
def readConfigFile (c : Camera) (file : List Nat) :
    Option (Camera × List SetCall) :=
  match file with
  | m :: d :: n :: rest =>
      if m ≠ MAGIC then none
      else if d ≠ 0 then none
      else some ((readRecs n rest).foldl applyRec (c, []))
  | _ => none

/-- The log entries a list of parsed records produces on camera `c`
(whose static tables `mc`, `manual`, `pcount` the reader consults). -/
def readLog (c : Camera) (rs : List FeatureData) : List SetCall :=
  (rs.map fun r =>
    if r.featureId ≠ c.mc ∧ c.manual r.featureId = true then
      [{ featureId := r.featureId, flags := r.flags,
         nParams := min r.nParams (c.pcount r.featureId), params := r.params }]
    else []).flatten

/-- Well-formedness of the camera table assumed for the round trip:
every supported feature has at least one parameter (the first lives
inside the `FeatureData` struct and WriteConfigFile advances its buffer
pointer by `pcount - 1` extra floats), ordinary supported features
store exactly `pcount` parameter values, and each GPIO line the writer
visits stores `pcount gpio - 1` values after the selector. -/
def Camera.wf (c : Camera) : Prop :=
  (∀ f, f < c.total → c.supported f = true → 1 ≤ c.pcount f) ∧
  (∀ f, f < c.total → c.supported f = true → f ≠ c.gpio →
    ((c.store f).2).length = c.pcount f) ∧
  (∀ l, 1 ≤ l → l ≤ c.numGpios →
    ((c.gpioStore l).2).length = c.pcount c.gpio - 1)

/-- A small concrete camera used to witness the round-trip theorem:
four feature ids, feature 1 the memory channel, feature 3 the GPIO
feature with two lines and two parameters, the others one parameter. -/
def camW : Camera :=
  { total := 4, mc := 1, gpio := 3,
    supported := fun _ => true, manual := fun _ => true,
    pcount := fun f => if f = 3 then 2 else 1, numGpios := 2,
    store := fun f => (10 + f, [100 + f]),
    gpioStore := fun l => (20 + l, [200 + l]) }

end ConfigFile

namespace ImageWriter

/-- A streaming state whose queue already holds `BUFFER_SIZE - 3 = 13`
slot references: the consumer is stalled while the producer has pushed
13 frames after the initial one. -/
def sC1 : PState :=
  { status := .running, srcPhase := .streaming, sinkPhase := .draining,
    tail := 13, expected := 7, frameSize := 6,
    queue := [0, 1, 2, 3, 4, 5, 6, 7, 8, 9, 10, 11, 12],
    acquires := 14, recordsWritten := [], filePos := 0, framesInFile := 0,
    fileExtent := 0 }

/-- Invariant: while the source thread has not completed its initial
acquire, nothing has been pushed and nothing written. -/
def preFirstInv (s : PState) : Prop :=
  s.srcPhase = .awaitingFirst → s.queue = [] ∧ s.recordsWritten = []

/-- Invariant after the initial acquire fixed the frame size at `c`:
the source thread never returns to `awaitingFirst`, `s_frameSize`
stays `c`, and every complete record the sink has written is `c`
bytes long. -/
def afterFirstInv (c : Nat) (s : PState) : Prop :=
  s.srcPhase ≠ .awaitingFirst ∧ s.frameSize = c ∧
    ∀ b ∈ s.recordsWritten, b = c

end ImageWriter

/-! ## Helper lemmas about the pipeline step function -/

namespace ImageWriter

theorem run_append (s : PState) (t1 t2 : List Ev) :
    run s (t1 ++ t2) = run (run s t1) t2 := by
  induction t1 generalizing s with
  | nil => rfl
  | cons e t ih => simpa [run] using ih (step s e)

/-- The sink thread touches none of the source thread's variables. -/
theorem sinkStep_fields (s : PState) (ok : Bool) :
    (sinkStep s ok).srcPhase = s.srcPhase ∧ (sinkStep s ok).acquires = s.acquires ∧
    (sinkStep s ok).tail = s.tail ∧ (sinkStep s ok).expected = s.expected ∧
    (sinkStep s ok).frameSize = s.frameSize := by
  unfold sinkStep
  repeat' split
  all_goals simp [apply_ite]

/-- The main thread's keypress check touches only the status. -/
theorem userStopStep_fields (s : PState) :
    (userStopStep s).srcPhase = s.srcPhase ∧ (userStopStep s).acquires = s.acquires ∧
    (userStopStep s).queue = s.queue ∧ (userStopStep s).recordsWritten = s.recordsWritten ∧
    (userStopStep s).frameSize = s.frameSize := by
  unfold userStopStep
  split
  all_goals exact ⟨rfl, rfl, rfl, rfl, rfl⟩

/-- A source-thread step can leave the status unchanged, set
`STATUS_ERROR`, or set `STATUS_SINK_OVERRUN` — nothing else. -/
theorem sourceStep_statusCases (s : PState) (r : AcqRes) :
    (sourceStep s r).status = s.status ∨ (sourceStep s r).status = .error ∨
      (sourceStep s r).status = .sinkOverrun := by
  unfold sourceStep
  repeat' split
  all_goals try simp only []
  all_goals try split
  all_goals simp

/-- A sink-thread step can leave the status unchanged or set
`STATUS_ERROR` — nothing else. -/
theorem sinkStep_statusCases (s : PState) (ok : Bool) :
    (sinkStep s ok).status = s.status ∨ (sinkStep s ok).status = .error := by
  unfold sinkStep
  repeat' split
  all_goals try simp only []
  all_goals try split
  all_goals simp

/-- The keypress check leaves the status unchanged or sets
`STATUS_USER_STOPPED`. -/
theorem userStopStep_statusCases (s : PState) :
    (userStopStep s).status = s.status ∨ (userStopStep s).status = .userStopped := by
  unfold userStopStep
  split <;> simp

/-- Once the source thread has exited its loop, no step reactivates it
and no further acquire is ever issued. -/
theorem step_stopped (s : PState) (e : Ev) (h : s.srcPhase = .stopped) :
    (step s e).srcPhase = .stopped ∧ (step s e).acquires = s.acquires := by
  cases e with
  | srcAcq r =>
      unfold step sourceStep
      rw [h]
      exact ⟨h, rfl⟩
  | sinkIo ok =>
      have hf := sinkStep_fields s ok
      exact ⟨by rw [show (step s (.sinkIo ok)) = sinkStep s ok from rfl, hf.1, h],
             hf.2.1⟩
  | userStop =>
      have hf := userStopStep_fields s
      exact ⟨by rw [show (step s .userStop) = userStopStep s from rfl, hf.1, h],
             hf.2.1⟩

theorem run_stopped (t : List Ev) (s : PState) (h : s.srcPhase = .stopped) :
    (run s t).srcPhase = .stopped ∧ (run s t).acquires = s.acquires := by
  induction t generalizing s with
  | nil => exact ⟨h, rfl⟩
  | cons e t ih =>
      have hs := step_stopped s e h
      have := ih (step s e) hs.1
      exact ⟨this.1, by rw [show run s (e :: t) = run (step s e) t from rfl, this.2, hs.2]⟩

/-- A successful acquire while the queue is within the safety margin of
full trips the overrun: `STATUS_SINK_OVERRUN` is set, the loop breaks,
and nothing is pushed. -/
theorem overrun_trip (s : PState) (n w h : Nat)
    (h1 : s.srcPhase = .streaming) (h2 : s.status = .running)
    (h3 : BUFFER_SIZE - 3 ≤ s.queue.length) :
    step s (.srcAcq (.ok n w h)) =
      { s with acquires := s.acquires + 1, tail := (s.tail + 1) % BUFFER_SIZE,
               expected := (n + 1) % U32, status := .sinkOverrun,
               srcPhase := .stopped } := by
  show sourceStep s (.ok n w h) = _
  unfold sourceStep
  rw [h1, h2]
  simp [h3]

/-- A failed acquire during a steady-state streaming iteration changes
nothing but the acquire count: the cursor is rolled back, nothing is
pushed, the tracker and status are untouched. -/
theorem acquire_fail_iteration (s : PState)
    (h1 : s.srcPhase = .streaming) (h2 : s.status = .running)
    (h3 : s.tail < BUFFER_SIZE) :
    step s (.srcAcq .fail) = { s with acquires := s.acquires + 1 } := by
  show sourceStep s .fail = _
  unfold sourceStep
  rw [h1, h2]
  have ht : ((s.tail + 1) % BUFFER_SIZE + (BUFFER_SIZE - 1)) % BUFFER_SIZE = s.tail := by
    unfold BUFFER_SIZE at *
    omega
  simp [ht]

/-- No step ever writes `STATUS_RUNNING` back: a status observed
`running` has been `running` since pipeline start. -/
theorem step_status_running (s : PState) (e : Ev)
    (h : (step s e).status = .running) : s.status = .running := by
  cases e with
  | srcAcq r =>
      rcases sourceStep_statusCases s r with hc | hc | hc <;>
        rw [show step s (.srcAcq r) = sourceStep s r from rfl] at h <;>
        rw [hc] at h <;> first | exact h.symm ▸ rfl | exact h | cases h
  | sinkIo ok =>
      rcases sinkStep_statusCases s ok with hc | hc <;>
        rw [show step s (.sinkIo ok) = sinkStep s ok from rfl] at h <;>
        rw [hc] at h <;> first | exact h | cases h
  | userStop =>
      rcases userStopStep_statusCases s with hc | hc <;>
        rw [show step s .userStop = userStopStep s from rfl] at h <;>
        rw [hc] at h <;> first | exact h | cases h

/-- The only status changes a source-thread step can make: the initial
acquire fails (→ `STATUS_ERROR`), or a successful streaming acquire
finds the queue within the safety margin (→ `STATUS_SINK_OVERRUN`). -/
theorem sourceStep_status_change (s : PState) (r : AcqRes)
    (h : (sourceStep s r).status ≠ s.status) :
    (s.srcPhase = .awaitingFirst ∧ r = .fail ∧ (sourceStep s r).status = .error) ∨
    (s.srcPhase = .streaming ∧ s.status = .running ∧
      BUFFER_SIZE - 3 ≤ s.queue.length ∧ r ≠ .fail ∧
      (sourceStep s r).status = .sinkOverrun) := by
  obtain ⟨st, sp, kp, tl, ex, fs, q, aq, rws, fp, ff, fe⟩ := s
  cases sp with
  | stopped => exact absurd rfl h
  | awaitingFirst =>
      cases r with
      | fail => exact Or.inl ⟨rfl, rfl, rfl⟩
      | ok n w hh => exact absurd rfl h
  | streaming =>
      by_cases hst : st = Status.running
      · subst hst
        cases r with
        | fail => exact absurd (by simp [sourceStep]) h
        | ok n w hh =>
            by_cases hq : BUFFER_SIZE - 3 ≤ q.length
            · refine Or.inr ⟨rfl, rfl, hq, by simp, ?_⟩
              simp [sourceStep, hq]
            · exact absurd (by simp [sourceStep, hq]) h
      · exact absurd (by simp [sourceStep, hst]) h

/-- The only status change a sink-thread step can make is to
`STATUS_ERROR`, on a failed `fopen` or a short write of a popped
frame. -/
theorem sinkStep_status_change (s : PState) (ok : Bool)
    (h : (sinkStep s ok).status ≠ s.status) :
    ok = false ∧ (sinkStep s ok).status = .error ∧
    (s.sinkPhase = .notOpened ∨
      (s.sinkPhase = .draining ∧ s.status = .running ∧ s.queue ≠ [])) := by
  obtain ⟨st, sp, kp, tl, ex, fs, q, aq, rws, fp, ff, fe⟩ := s
  cases kp with
  | stopped => exact absurd rfl h
  | notOpened =>
      cases ok with
      | true => exact absurd (by simp [sinkStep]) h
      | false => exact ⟨rfl, rfl, Or.inl rfl⟩
  | draining =>
      by_cases hst : st = Status.running
      · subst hst
        rcases q with _ | ⟨a, q⟩
        · exact absurd (by simp [sinkStep]) h
        · cases ok with
          | true => exact absurd (by simp [sinkStep, apply_ite]) h
          | false => exact ⟨rfl, by simp [sinkStep], Or.inr ⟨rfl, rfl, by simp⟩⟩
      · exact absurd (by simp [sinkStep, hst]) h

/-- A source-thread step never lands back in `awaitingFirst`. -/
theorem sourceStep_phaseCases (s : PState) (r : AcqRes) :
    (sourceStep s r).srcPhase = SrcPhase.streaming ∨
      (sourceStep s r).srcPhase = SrcPhase.stopped := by
  unfold sourceStep
  repeat' split
  all_goals try simp only []
  all_goals try split
  all_goals simp_all

theorem sourceStep_records (s : PState) (r : AcqRes) :
    (sourceStep s r).recordsWritten = s.recordsWritten := by
  unfold sourceStep
  repeat' split
  all_goals try simp only []
  all_goals try split
  all_goals simp

theorem sourceStep_frameSize (s : PState) (r : AcqRes)
    (h : s.srcPhase ≠ SrcPhase.awaitingFirst) :
    (sourceStep s r).frameSize = s.frameSize := by
  unfold sourceStep
  repeat' split
  all_goals try simp only []
  all_goals try split
  all_goals simp_all

theorem sinkStep_records (s : PState) (ok : Bool) :
    (sinkStep s ok).recordsWritten = s.recordsWritten ∨
      (sinkStep s ok).recordsWritten = s.recordsWritten ++ [s.frameSize] := by
  unfold sinkStep
  repeat' split
  all_goals try simp only []
  all_goals try split
  all_goals simp

theorem sinkStep_nilQueue (s : PState) (ok : Bool) (h : s.queue = []) :
    (sinkStep s ok).queue = [] ∧
      (sinkStep s ok).recordsWritten = s.recordsWritten := by
  unfold sinkStep
  repeat' split
  all_goals try simp only []
  all_goals try split
  all_goals simp_all

/-- `preFirstInv` is preserved by every step. -/
theorem step_preFirstInv (s : PState) (e : Ev) (h : preFirstInv s) :
    preFirstInv (step s e) := by
  cases e with
  | srcAcq r =>
      intro hp
      rcases sourceStep_phaseCases s r with hc | hc <;>
        rw [show step s (.srcAcq r) = sourceStep s r from rfl] at hp <;>
        rw [hc] at hp <;> cases hp
  | sinkIo ok =>
      intro hp
      rw [show step s (.sinkIo ok) = sinkStep s ok from rfl] at hp ⊢
      rw [(sinkStep_fields s ok).1] at hp
      obtain ⟨hq, hr⟩ := h hp
      obtain ⟨hq2, hr2⟩ := sinkStep_nilQueue s ok hq
      exact ⟨hq2, by rw [hr2, hr]⟩
  | userStop =>
      intro hp
      rw [show step s .userStop = userStopStep s from rfl] at hp ⊢
      rw [(userStopStep_fields s).1] at hp
      obtain ⟨hq, hr⟩ := h hp
      exact ⟨by rw [(userStopStep_fields s).2.2.1, hq],
             by rw [(userStopStep_fields s).2.2.2.1, hr]⟩

theorem run_preFirstInv (t : List Ev) (s : PState) (h : preFirstInv s) :
    preFirstInv (run s t) := by
  induction t generalizing s with
  | nil => exact h
  | cons e t ih => exact ih (step s e) (step_preFirstInv s e h)

/-- `afterFirstInv` is preserved by every step. -/
theorem step_afterFirstInv (c : Nat) (s : PState) (e : Ev)
    (h : afterFirstInv c s) : afterFirstInv c (step s e) := by
  obtain ⟨h1, h2, h3⟩ := h
  cases e with
  | srcAcq r =>
      refine ⟨?_, ?_, ?_⟩
      · rcases sourceStep_phaseCases s r with hc | hc <;>
          rw [show step s (.srcAcq r) = sourceStep s r from rfl, hc] <;> simp
      · rw [show step s (.srcAcq r) = sourceStep s r from rfl,
            sourceStep_frameSize s r h1]
        exact h2
      · rw [show step s (.srcAcq r) = sourceStep s r from rfl,
            sourceStep_records s r]
        exact h3
  | sinkIo ok =>
      refine ⟨?_, ?_, ?_⟩
      · rw [show step s (.sinkIo ok) = sinkStep s ok from rfl,
            (sinkStep_fields s ok).1]
        exact h1
      · rw [show step s (.sinkIo ok) = sinkStep s ok from rfl,
            (sinkStep_fields s ok).2.2.2.2]
        exact h2
      · rw [show step s (.sinkIo ok) = sinkStep s ok from rfl]
        rcases sinkStep_records s ok with hc | hc <;> rw [hc]
        · exact h3
        · intro b hb
          rcases List.mem_append.mp hb with hb | hb
          · exact h3 b hb
          · rw [List.mem_singleton.mp hb, h2]
  | userStop =>
      refine ⟨?_, ?_, ?_⟩
      · rw [show step s .userStop = userStopStep s from rfl,
            (userStopStep_fields s).1]
        exact h1
      · rw [show step s .userStop = userStopStep s from rfl,
            (userStopStep_fields s).2.2.2.2]
        exact h2
      · rw [show step s .userStop = userStopStep s from rfl,
            (userStopStep_fields s).2.2.2.1]
        exact h3

theorem run_afterFirstInv (c : Nat) (t : List Ev) (s : PState)
    (h : afterFirstInv c s) : afterFirstInv c (run s t) := by
  induction t generalizing s with
  | nil => exact h
  | cons e t ih => exact ih (step s e) (step_afterFirstInv c s e h)

end ImageWriter

/-! ## Claim theorems: capture pipeline, callback accounting, exit codes -/

namespace ImageWriter

/-- **C1 (amended)**: in the capture loop's Streaming state, on every
iteration in which the blocking acquire *succeeds* and the queue length
is at least `poolSize − margin` (16 − 3 = 13), the loop sets the
pipeline status to SinkOverrun and stops before issuing the next
blocking acquire (nothing further is pushed), and after this trip no
further slots are ever acquired, whatever else happens. -/
theorem c1_backpressure_trip (s : PState) (n w h : Nat) (t : List Ev)
    (h1 : s.srcPhase = .streaming) (h2 : s.status = .running)
    (h3 : BUFFER_SIZE - 3 ≤ s.queue.length) :
    (step s (.srcAcq (.ok n w h))).status = .sinkOverrun ∧
    (step s (.srcAcq (.ok n w h))).srcPhase = .stopped ∧
    (step s (.srcAcq (.ok n w h))).queue = s.queue ∧
    (run (step s (.srcAcq (.ok n w h))) t).acquires =
      (step s (.srcAcq (.ok n w h))).acquires := by
  have ho := overrun_trip s n w h h1 h2 h3
  rw [ho]
  exact ⟨rfl, rfl, rfl, (run_stopped t _ rfl).2⟩

theorem c1_witness :
    (step sC1 (.srcAcq (.ok 7 2 3))).status = .sinkOverrun ∧
    (step sC1 (.srcAcq (.ok 7 2 3))).srcPhase = .stopped ∧
    (step sC1 (.srcAcq (.ok 7 2 3))).queue = sC1.queue ∧
    (run (step sC1 (.srcAcq (.ok 7 2 3))) [.sinkIo true, .srcAcq .fail]).acquires =
      (step sC1 (.srcAcq (.ok 7 2 3))).acquires :=
  c1_backpressure_trip sC1 7 2 3 [.sinkIo true, .srcAcq .fail] rfl rfl (by decide)

/-- **C1 counterexample**: an iteration that starts with the queue
already at the trip threshold but whose acquire *fails* does not set
SinkOverrun — the overrun check runs only after a successful acquire
(imageWriter.cpp line 224 is skipped by the `continue` of line 209) —
and the loop then issues further blocking acquires. -/
theorem c1_counterexample :
    sC1.srcPhase = .streaming ∧ sC1.status = .running ∧
    BUFFER_SIZE - 3 ≤ sC1.queue.length ∧
    (step sC1 (.srcAcq .fail)).status ≠ .sinkOverrun ∧
    (step sC1 (.srcAcq .fail)).status = .running ∧
    (step sC1 (.srcAcq .fail)).srcPhase = .streaming ∧
    (run sC1 [.srcAcq .fail, .srcAcq .fail]).acquires = sC1.acquires + 2 := by
  decide

/-- **C3 (amended)**: each of the four fatal conditions — failure of
the very first acquire, failure to open the output sink, a short write
to the sink, and backpressure overrun — sets a terminal Pipeline
Status and stops the loop that detected it, and no other condition
sets a terminal status from within the two loops; the four statuses
are however not pairwise distinct: the overrun sets SinkOverrun while
the other three all set Error. -/
theorem c3_terminal_conditions :
    (∀ s : PState, s.srcPhase = .awaitingFirst →
      (step s (.srcAcq .fail)).status = .error ∧
        (step s (.srcAcq .fail)).srcPhase = .stopped) ∧
    (∀ (s : PState) (n w h : Nat), s.srcPhase = .streaming →
      s.status = .running → BUFFER_SIZE - 3 ≤ s.queue.length →
      (step s (.srcAcq (.ok n w h))).status = .sinkOverrun ∧
        (step s (.srcAcq (.ok n w h))).srcPhase = .stopped) ∧
    (∀ s : PState, s.sinkPhase = .notOpened →
      (step s (.sinkIo false)).status = .error ∧
        (step s (.sinkIo false)).sinkPhase = .stopped) ∧
    (∀ s : PState, s.sinkPhase = .draining → s.status = .running →
      s.queue ≠ [] →
      (step s (.sinkIo false)).status = .error ∧
        (step s (.sinkIo false)).sinkPhase = .stopped) ∧
    (∀ (s : PState) (r : AcqRes), (step s (.srcAcq r)).status ≠ s.status →
      (s.srcPhase = .awaitingFirst ∧ r = .fail ∧
        (step s (.srcAcq r)).status = .error) ∨
      (s.srcPhase = .streaming ∧ s.status = .running ∧
        BUFFER_SIZE - 3 ≤ s.queue.length ∧ r ≠ .fail ∧
        (step s (.srcAcq r)).status = .sinkOverrun)) ∧
    (∀ (s : PState) (ok : Bool), (step s (.sinkIo ok)).status ≠ s.status →
      ok = false ∧ (step s (.sinkIo ok)).status = .error ∧
      (s.sinkPhase = .notOpened ∨
        (s.sinkPhase = .draining ∧ s.status = .running ∧ s.queue ≠ []))) := by
  refine ⟨?_, ?_, ?_, ?_, ?_, ?_⟩
  · intro s h
    show (sourceStep s .fail).status = _ ∧ (sourceStep s .fail).srcPhase = _
    unfold sourceStep
    rw [h]
    exact ⟨rfl, rfl⟩
  · intro s n w h h1 h2 h3
    rw [overrun_trip s n w h h1 h2 h3]
    exact ⟨rfl, rfl⟩
  · intro s h
    show (sinkStep s false).status = _ ∧ (sinkStep s false).sinkPhase = _
    unfold sinkStep
    rw [h]
    exact ⟨rfl, rfl⟩
  · intro s h1 h2 h3
    show (sinkStep s false).status = _ ∧ (sinkStep s false).sinkPhase = _
    unfold sinkStep
    rw [h1, if_pos h2]
    cases hq : s.queue with
    | nil => exact absurd hq h3
    | cons a rest => exact ⟨rfl, rfl⟩
  · intro s r h
    exact sourceStep_status_change s r h
  · intro s ok h
    exact sinkStep_status_change s ok h

theorem c3_witness :
    (step state0 (.srcAcq .fail)).status = .error ∧
    (step state0 (.srcAcq .fail)).srcPhase = .stopped ∧
    (step sC1 (.srcAcq (.ok 7 2 3))).status = .sinkOverrun ∧
    (step state0 (.sinkIo false)).status = .error ∧
    (step sC1 (.sinkIo false)).status = .error :=
  ⟨(c3_terminal_conditions.1 state0 rfl).1,
   (c3_terminal_conditions.1 state0 rfl).2,
   (c3_terminal_conditions.2.1 sC1 7 2 3 rfl rfl (by decide)).1,
   (c3_terminal_conditions.2.2.1 state0 rfl).1,
   (c3_terminal_conditions.2.2.2.1 sC1 rfl rfl (by decide)).1⟩

/-- **C3 counterexample**: the four terminal statuses are not pairwise
distinct — the failure of the very first acquire and the failure to
open the output sink both set `STATUS_ERROR`. -/
theorem c3_counterexample :
    state0.srcPhase = .awaitingFirst ∧ state0.sinkPhase = .notOpened ∧
    (step state0 (.srcAcq .fail)).status = .error ∧
    (step state0 (.sinkIo false)).status = .error ∧
    (step state0 (.srcAcq .fail)).status = (step state0 (.sinkIo false)).status := by
  decide

/-- **C4 (amended)**: the Pipeline Status is created Running at
pipeline start, and no step of the main loop, capture loop or
persistence loop ever sets it back to Running: every status observed
Running has been Running since start.  (The stronger "at most one
terminal transition" fails — see the counterexample.) -/
theorem c4_no_revert_to_running :
    state0.status = .running ∧
    ∀ (s : PState) (e : Ev), (step s e).status = .running →
      s.status = .running :=
  ⟨rfl, step_status_running⟩

theorem c4_witness : state0.status = .running :=
  c4_no_revert_to_running.2 state0 (.sinkIo true) (by decide)

/-- **C4 counterexample**: a terminal status can be overwritten by a
different terminal one.  If the user stop arrives while the source
thread is blocked in its very first acquire (the `PxLSetStreamState
STOP_STREAM` in main unblocks it with an error, imageWriter.cpp line
156), the source thread's error path overwrites `STATUS_USER_STOPPED`
with `STATUS_ERROR`: two terminal values are set in one execution. -/
theorem c4_counterexample :
    (step state0 .userStop).status = .userStopped ∧
    (step (step state0 .userStop) (.srcAcq .fail)).status = .error := by
  decide

/-- **C5**: imageWriter's `main` yields exit code 0 on every top-level
path — including all internal error paths — because it contains no
return statement and falls off its end.  (The claim's "nonzero on
error paths" is what the defined-but-unused `GENERAL_ERROR` constant
and every sibling sample's `main` implement; here it is absent.) -/
theorem c5_exit_code_always_zero :
    mainExitCode .enumerationFailed = 0 ∧
    mainExitCode .cameraOpenFailed = 0 ∧
    mainExitCode .streamStartFailed = 0 ∧
    mainExitCode (.ran .error) = 0 ∧
    mainExitCode (.ran .sinkOverrun) = 0 ∧
    mainExitCode (.ran .userStopped) = 0 ∧
    ∀ o : MainOutcome, mainExitCode o = 0 := by
  refine ⟨rfl, rfl, rfl, rfl, rfl, rfl, ?_⟩
  intro o
  cases o <;> rfl

/-- **C6**: a failed blocking acquire in a steady-state streaming
iteration leaves the pipeline state unchanged apart from the log: the
write cursor is rolled back to its starting value (the slot is
recycled), nothing is pushed onto the queue, the expected-sequence
tracker is unchanged, the status stays Running, and the loop
continues. -/
theorem c6_acquire_failure_transient (s : PState)
    (h1 : s.srcPhase = .streaming) (h2 : s.status = .running)
    (h3 : s.tail < BUFFER_SIZE) :
    step s (.srcAcq .fail) = { s with acquires := s.acquires + 1 } ∧
    (step s (.srcAcq .fail)).tail = s.tail ∧
    (step s (.srcAcq .fail)).queue = s.queue ∧
    (step s (.srcAcq .fail)).expected = s.expected ∧
    (step s (.srcAcq .fail)).status = .running ∧
    (step s (.srcAcq .fail)).srcPhase = .streaming := by
  have hit := acquire_fail_iteration s h1 h2 h3
  rw [hit]
  exact ⟨rfl, rfl, rfl, rfl, h2, h1⟩

theorem c6_witness :
    step sC1 (.srcAcq .fail) = { sC1 with acquires := sC1.acquires + 1 } ∧
    (step sC1 (.srcAcq .fail)).tail = sC1.tail ∧
    (step sC1 (.srcAcq .fail)).queue = sC1.queue ∧
    (step sC1 (.srcAcq .fail)).expected = sC1.expected ∧
    (step sC1 (.srcAcq .fail)).status = .running ∧
    (step sC1 (.srcAcq .fail)).srcPhase = .streaming :=
  c6_acquire_failure_transient sC1 rfl rfl (by decide)

/-- The sink's file position, per-file frame counter and high-water
file size after `k` successful writes, in closed form. -/
theorem sinkFileState_spec (fs k : Nat) :
    sinkFileState fs k =
      ((k % MAX_IMAGES) * fs, k % MAX_IMAGES, min k MAX_IMAGES * fs) := by
  induction k with
  | zero => simp [sinkFileState]
  | succ k ih =>
      rw [sinkFileState, ih]
      simp only [MAX_IMAGES] at *
      by_cases hk : k % 32 = 31
      · have h0 : (k + 1) % 32 = 0 := by omega
        have hmin : min (k + 1) 32 = 32 := by omega
        have hle : min k 32 * fs ≤ 32 * fs :=
          Nat.mul_le_mul_right fs (by omega)
        rw [if_pos (by omega), h0, hmin, hk]
        have hsum : 31 * fs + fs = 32 * fs := by ring
        rw [hsum, Nat.max_eq_right hle]
        simp
      · have h1 : (k + 1) % 32 = k % 32 + 1 := by omega
        rw [if_neg (by omega), h1]
        have hpos : (k % 32 + 1) * fs = k % 32 * fs + fs := Nat.succ_mul _ _
        by_cases hk32 : k < 32
        · have hmk : min k 32 = k := by omega
          have hmk1 : min (k + 1) 32 = k + 1 := by omega
          have hkk : k % 32 = k := by omega
          have hmax : max (k * fs) (k * fs + fs) = k * fs + fs :=
            Nat.max_eq_right (Nat.le_add_right _ _)
          rw [hmk, hmk1, hkk, hmax, Nat.succ_mul]
        · have hmk : min k 32 = 32 := by omega
          have hmk1 : min (k + 1) 32 = 32 := by omega
          have h2 : (k % 32 + 1) * fs ≤ 32 * fs :=
            Nat.mul_le_mul_right fs (by omega)
          rw [Nat.succ_mul] at h2
          rw [hmk, hmk1, Nat.max_eq_left h2, hpos]

/-- **C7**: after the persistence loop has successfully written `k`
frames of `fs` bytes, the sink's write position is
`(k mod MAX_IMAGES) * fs` — it is rewound to the file start exactly
when the per-file counter reaches `MAX_IMAGES = 32` — and the file
never grows beyond `MAX_IMAGES * fs` bytes. -/
theorem c7_ring_file_bound (fs k : Nat) :
    (sinkFileState fs k).1 = (k % MAX_IMAGES) * fs ∧
    (sinkFileState fs k).2.1 = k % MAX_IMAGES ∧
    (sinkFileState fs k).2.2 ≤ MAX_IMAGES * fs := by
  rw [sinkFileState_spec fs k]
  exact ⟨rfl, rfl, Nat.mul_le_mul_right fs (Nat.min_le_right k MAX_IMAGES)⟩

theorem c7_witness :
    (sinkFileState 6 33).1 = (33 % MAX_IMAGES) * 6 ∧
    (sinkFileState 6 33).2.1 = 33 % MAX_IMAGES ∧
    (sinkFileState 6 33).2.2 ≤ MAX_IMAGES * 6 :=
  c7_ring_file_bound 6 33

/-- **C9**: every complete frame record the persistence loop writes has
the same byte length, `width * height` taken from the first
successfully captured frame's descriptor; the dimensions carried by
later frames' descriptors (the `post` events) never affect it. -/
theorem c9_fixed_record_size (pre post : List Ev) (n w h : Nat)
    (h1 : (run state0 pre).srcPhase = .awaitingFirst) :
    ∀ b ∈ (run state0 (pre ++ .srcAcq (.ok n w h) :: post)).recordsWritten,
      b = (w * h) % U32 := by
  have hpre : preFirstInv (run state0 pre) :=
    run_preFirstInv pre state0 (fun _ => ⟨rfl, rfl⟩)
  obtain ⟨hq, hr⟩ := hpre h1
  rw [run_append]
  show ∀ b ∈ (run (step (run state0 pre) (.srcAcq (.ok n w h))) post).recordsWritten,
      b = (w * h) % U32
  have hstep_eq : step (run state0 pre) (.srcAcq (.ok n w h)) =
      { run state0 pre with
          acquires := (run state0 pre).acquires + 1,
          expected := (n + 1) % U32,
          frameSize := (w * h) % U32, srcPhase := .streaming } := by
    show sourceStep (run state0 pre) (.ok n w h) = _
    unfold sourceStep
    rw [h1]
  have hstep : afterFirstInv ((w * h) % U32)
      (step (run state0 pre) (.srcAcq (.ok n w h))) := by
    rw [hstep_eq]
    refine ⟨by simp, rfl, ?_⟩
    intro b hb
    simp only at hb
    rw [hr] at hb
    cases hb
  exact (run_afterFirstInv _ post _ hstep).2.2

theorem c9_witness :
    (run state0 ([] ++ .srcAcq (.ok 5 2 3) ::
        [.sinkIo true, .srcAcq (.ok 6 40 50), .sinkIo true])).recordsWritten = [6] ∧
    ∀ b ∈ (run state0 ([] ++ .srcAcq (.ok 5 2 3) ::
        [.sinkIo true, .srcAcq (.ok 6 40 50), .sinkIo true])).recordsWritten,
      b = (2 * 3) % U32 :=
  ⟨by decide,
   c9_fixed_record_size [] [.sinkIo true, .srcAcq (.ok 6 40 50), .sinkIo true]
     5 2 3 rfl⟩

end ImageWriter

namespace CountImages

/-- **C2**: feeding the frame callback the device sequence numbers
1, 3, 2, 4 from the initial state, the lost-frame count is 1 right
after the call with sequence 3, is 0 right after the late arrival with
sequence 2 (which decrements it), and remains 0 after sequence 4. -/
theorem c2_late_arrival_correction :
    (runCallback cbState0 [1, 3]).lostFrameCount = 1 ∧
    (runCallback cbState0 [1, 3, 2]).lostFrameCount = 0 ∧
    (runCallback cbState0 [1, 3, 2, 4]).lostFrameCount = 0 := by
  decide

/-- **C10**: on every invocation after the first frame whose sequence
number is strictly below the expected tracker, the callback decrements
the lost count by one and leaves the tracker unchanged (only the frame
count advances); consequently the duplicated sequence 1, 2, 2 leaves
the lost count at −1. -/
theorem c10_late_arrival_decrement :
    (∀ (s : CbState) (n : Nat), s.receivedFirstFrame = true →
        n < s.expectedFrameNum →
        frameCallbackFunction s n =
          { s with frameCount := s.frameCount + 1,
                   lostFrameCount := s.lostFrameCount - 1 }) ∧
    (runCallback cbState0 [1, 2, 2]).lostFrameCount = -1 := by
  constructor
  · intro s n h1 h2
    simp [frameCallbackFunction, h1, h2]
  · decide

theorem c10_witness :
    frameCallbackFunction
        { receivedFirstFrame := true, expectedFrameNum := 5,
          frameCount := 3, lostFrameCount := 2 } 4 =
      { receivedFirstFrame := true, expectedFrameNum := 5, frameCount := 4,
        lostFrameCount := 1 } := by
  have h := c10_late_arrival_decrement.1
    { receivedFirstFrame := true, expectedFrameNum := 5, frameCount := 3,
      lostFrameCount := 2 } 4 rfl (by decide)
  simpa using h

end CountImages

/-! ## Claim C8: configuration-file round trip -/

namespace ConfigFile

theorem readRecs_enc (rs : List FeatureData)
    (h : ∀ r ∈ rs, r.params.length = r.nParams) :
    readRecs rs.length ((rs.map encRec).flatten) = rs := by
  induction rs with
  | nil => rfl
  | cons r rs ih =>
      obtain ⟨fid, fl, np, ps⟩ := r
      have hr : ps.length = np := h _ (List.mem_cons_self _ _)
      have hs : ∀ x ∈ rs, x.params.length = x.nParams :=
        fun x hx => h x (List.mem_cons_of_mem _ hx)
      simp only [List.map_cons, List.flatten_cons, List.length_cons, encRec,
        List.cons_append, readRecs]
      rw [List.take_left' hr, List.drop_left' hr, ih hs]

theorem writeFeature_length (c : Camera) (f : Nat) :
    (writeFeature c f).length = countFeature c f := by
  unfold writeFeature countFeature
  split_ifs <;> simp

theorem nSupported_eq_length (c : Camera) :
    nSupported c = (writeRecords c).length := by
  unfold nSupported writeRecords
  rw [List.length_flatten, List.map_map, List.map_reverse, List.sum_reverse]
  congr 1
  exact List.map_congr_left fun f _ => (writeFeature_length c f).symm

theorem writeRecords_mem (c : Camera) (r : FeatureData)
    (hr : r ∈ writeRecords c) : ∃ f, f < c.total ∧ r ∈ writeFeature c f := by
  unfold writeRecords at hr
  rcases List.mem_flatten.mp hr with ⟨l, hl, hrl⟩
  rcases List.mem_map.mp hl with ⟨f, hf, rfl⟩
  exact ⟨f, List.mem_range.mp (List.mem_reverse.mp hf), hrl⟩

theorem writeFeature_mem (c : Camera) (f : Nat) (r : FeatureData)
    (hr : r ∈ writeFeature c f) :
    c.supported f = true ∧ f ≠ c.mc ∧ r.featureId = f ∧
    r.nParams = c.pcount f ∧
    ((f ≠ c.gpio ∧ r.flags = (c.store f).1 ∧ r.params = (c.store f).2) ∨
     (f = c.gpio ∧ ∃ i, i < c.numGpios ∧ r.flags = (c.gpioStore (i + 1)).1 ∧
        r.params = (i + 1) :: (c.gpioStore (i + 1)).2)) := by
  unfold writeFeature at hr
  split_ifs at hr with h1 h2 h3
  · cases hr
  · cases hr
  · rcases List.mem_map.mp hr with ⟨i, hi, hmap⟩
    have hi2 := List.mem_range.mp hi
    refine ⟨by simpa using h1, h2, ?_, ?_, Or.inr ⟨h3, i, hi2, ?_, ?_⟩⟩ <;>
      rw [← hmap] <;> rfl
  · have := List.mem_singleton.mp hr
    subst this
    exact ⟨by simpa using h1, h2, rfl, rfl, Or.inl ⟨h3, rfl, rfl⟩⟩

theorem writeRecords_wf (c : Camera) (hwf : c.wf) (r : FeatureData)
    (hr : r ∈ writeRecords c) :
    r.params.length = r.nParams ∧ 1 ≤ r.nParams ∧ r.featureId ≠ c.mc := by
  obtain ⟨f, hft, hfm⟩ := writeRecords_mem c r hr
  obtain ⟨hsup, hmc, hfid, hnp, hcase⟩ := writeFeature_mem c f r hfm
  have hp1 : 1 ≤ c.pcount f := hwf.1 f hft hsup
  refine ⟨?_, by rw [hnp]; exact hp1, by rw [hfid]; exact hmc⟩
  rcases hcase with ⟨hng, _, hps⟩ | ⟨hg, i, hi, _, hps⟩
  · rw [hps, hnp]
    exact hwf.2.1 f hft hsup hng
  · subst hg
    rw [hps, hnp]
    have hlen := hwf.2.2 (i + 1) (by omega) (by omega)
    simp only [List.length_cons, hlen]
    omega

end ConfigFile

namespace ConfigFile

theorem setFeature_store_id (c : Camera) (f : Nat) (hf : f ≠ c.gpio)
    (hl : ((c.store f).2).length = c.pcount f) :
    setFeature c f (c.store f).1 (c.pcount f) (c.store f).2 = c := by
  obtain ⟨tot, mc, gp, sup, man, pc, ng, st, gst⟩ := c
  unfold setFeature
  rw [if_neg hf]
  simp only [Camera.mk.injEq, and_true, true_and]
  funext x
  by_cases hx : x = f
  · subst hx
    rw [if_pos rfl]
    dsimp at hl
    rw [← hl, List.take_length, List.drop_length, List.append_nil]
  · rw [if_neg hx]

theorem setFeature_gpio_id (c : Camera) (l : Nat)
    (hl : ((c.gpioStore l).2).length = c.pcount c.gpio - 1) :
    setFeature c c.gpio (c.gpioStore l).1 (c.pcount c.gpio)
      (l :: (c.gpioStore l).2) = c := by
  obtain ⟨tot, mc, gp, sup, man, pc, ng, st, gst⟩ := c
  unfold setFeature
  rw [if_pos rfl]
  simp only [Camera.mk.injEq, and_true, true_and]
  funext x
  by_cases hx : x = l
  · subst hx
    rw [if_pos rfl]
    dsimp at hl
    rw [← hl, List.take_length, List.drop_length, List.append_nil]
  · rw [if_neg hx]

theorem applyRec_snd (c : Camera) (log : List SetCall) (r : FeatureData) :
    (applyRec (c, log) r).2 = log ++
      (if r.featureId ≠ c.mc ∧ c.manual r.featureId = true then
        [{ featureId := r.featureId, flags := r.flags,
           nParams := min r.nParams (c.pcount r.featureId),
           params := r.params }]
       else []) := by
  unfold applyRec
  split_ifs with h
  · rfl
  · simp

theorem applyRec_write_id (c : Camera) (hwf : c.wf) (r : FeatureData)
    (hr : r ∈ writeRecords c) (log : List SetCall) :
    (applyRec (c, log) r).1 = c := by
  obtain ⟨f, hft, hfm⟩ := writeRecords_mem c r hr
  obtain ⟨hsup, hmc, hfid, hnp, hcase⟩ := writeFeature_mem c f r hfm
  unfold applyRec
  split_ifs with hcond
  · dsimp only
    rcases hcase with ⟨hng, hfl, hps⟩ | ⟨hg, i, hi, hfl, hps⟩
    · rw [hfid, hfl, hps, hnp, min_self]
      exact setFeature_store_id c f hng (hwf.2.1 f hft hsup hng)
    · subst hg
      rw [hfid, hfl, hps, hnp, min_self]
      exact setFeature_gpio_id c (i + 1) (hwf.2.2 (i + 1) (by omega) (by omega))
  · rfl

theorem readLog_cons (c : Camera) (r : FeatureData) (rs : List FeatureData) :
    readLog c (r :: rs) =
      (if r.featureId ≠ c.mc ∧ c.manual r.featureId = true then
        [{ featureId := r.featureId, flags := r.flags,
           nParams := min r.nParams (c.pcount r.featureId),
           params := r.params }]
       else []) ++ readLog c rs := by
  unfold readLog
  simp

theorem foldl_applyRec_id (c : Camera) (rs : List FeatureData)
    (h : ∀ r ∈ rs, ∀ log : List SetCall, (applyRec (c, log) r).1 = c) :
    ∀ log : List SetCall,
      (rs.foldl applyRec (c, log)).1 = c ∧
      (rs.foldl applyRec (c, log)).2 = log ++ readLog c rs := by
  induction rs with
  | nil => intro log; exact ⟨rfl, by simp [readLog]⟩
  | cons r rs ih =>
      intro log
      have h1 : (applyRec (c, log) r).1 = c := h r (List.mem_cons_self _ _) log
      have h2 := applyRec_snd c log r
      have hpair : applyRec (c, log) r = (c, (applyRec (c, log) r).2) := by
        calc applyRec (c, log) r
            = ((applyRec (c, log) r).1, (applyRec (c, log) r).2) := Prod.mk.eta.symm
          _ = (c, (applyRec (c, log) r).2) := by rw [h1]
      have hs : ∀ x ∈ rs, ∀ log : List SetCall, (applyRec (c, log) x).1 = c :=
        fun x hx => h x (List.mem_cons_of_mem _ hx)
      have hstep : List.foldl applyRec (c, log) (r :: rs) =
          List.foldl applyRec (applyRec (c, log) r) rs := rfl
      rw [hstep, hpair, h2]
      have hih := ih hs (log ++
        (if r.featureId ≠ c.mc ∧ c.manual r.featureId = true then
          [{ featureId := r.featureId, flags := r.flags,
             nParams := min r.nParams (c.pcount r.featureId),
             params := r.params }]
         else []))
      refine ⟨hih.1, ?_⟩
      rw [hih.2, readLog_cons, List.append_assoc]

theorem readConfigFile_write (c : Camera) (hwf : c.wf) :
    readConfigFile c (writeConfigFile c) =
      some (c, readLog c (writeRecords c)) := by
  unfold writeConfigFile
  simp only [readConfigFile]
  rw [if_neg (fun hc => hc rfl), if_neg (fun hc => hc rfl)]
  rw [nSupported_eq_length,
      readRecs_enc _ (fun r hr => (writeRecords_wf c hwf r hr).1)]
  have hfold := foldl_applyRec_id c (writeRecords c)
    (fun r hr log => applyRec_write_id c hwf r hr log) []
  rw [show (writeRecords c).foldl applyRec ((c, []) : Camera × List SetCall) =
      (c, readLog c (writeRecords c)) from
    Prod.ext hfold.1 (by rw [hfold.2]; simp)]

end ConfigFile

namespace ConfigFile

theorem mem_readLog (c : Camera) (rs : List FeatureData) (r : FeatureData)
    (hr : r ∈ rs) (hcond : r.featureId ≠ c.mc ∧ c.manual r.featureId = true) :
    ({ featureId := r.featureId, flags := r.flags,
       nParams := min r.nParams (c.pcount r.featureId),
       params := r.params } : SetCall) ∈ readLog c rs := by
  unfold readLog
  apply List.mem_flatten.mpr
  refine ⟨_, List.mem_map_of_mem _ hr, ?_⟩
  rw [if_pos hcond]
  exact List.mem_singleton.mpr rfl

theorem readLog_no_mc (c : Camera) (rs : List FeatureData) (call : SetCall)
    (hc : call ∈ readLog c rs) : call.featureId ≠ c.mc := by
  unfold readLog at hc
  rcases List.mem_flatten.mp hc with ⟨l, hl, hcl⟩
  rcases List.mem_map.mp hl with ⟨r, hrr, rfl⟩
  by_cases hcnd : r.featureId ≠ c.mc ∧ c.manual r.featureId = true
  · rw [if_pos hcnd] at hcl
    rw [List.mem_singleton.mp hcl]
    exact hcnd.1
  · rw [if_neg hcnd] at hcl
    cases hcl

theorem writeRecords_no_mc (c : Camera) (r : FeatureData)
    (hr : r ∈ writeRecords c) : r.featureId ≠ c.mc := by
  obtain ⟨f, hft, hfm⟩ := writeRecords_mem c r hr
  obtain ⟨_, hmc, hfid, _, _⟩ := writeFeature_mem c f r hfm
  rw [hfid]
  exact hmc

theorem mem_writeRecords_store (c : Camera) (f : Nat) (hft : f < c.total)
    (hsup : c.supported f = true) (hmc : f ≠ c.mc) (hng : f ≠ c.gpio) :
    ({ featureId := f, flags := (c.store f).1, nParams := c.pcount f,
       params := (c.store f).2 } : FeatureData) ∈ writeRecords c := by
  unfold writeRecords
  apply List.mem_flatten.mpr
  refine ⟨writeFeature c f, List.mem_map_of_mem _ ?_, ?_⟩
  · exact List.mem_reverse.mpr (List.mem_range.mpr hft)
  · unfold writeFeature
    rw [if_neg (by simp [hsup]), if_neg hmc, if_neg hng]
    exact List.mem_singleton.mpr rfl

theorem mem_writeRecords_gpio (c : Camera) (l : Nat) (h1 : 1 ≤ l)
    (h2 : l ≤ c.numGpios) (hft : c.gpio < c.total)
    (hsup : c.supported c.gpio = true) (hmc : c.gpio ≠ c.mc) :
    ({ featureId := c.gpio, flags := (c.gpioStore l).1,
       nParams := c.pcount c.gpio,
       params := l :: (c.gpioStore l).2 } : FeatureData) ∈ writeRecords c := by
  unfold writeRecords
  apply List.mem_flatten.mpr
  refine ⟨writeFeature c c.gpio, List.mem_map_of_mem _ ?_, ?_⟩
  · exact List.mem_reverse.mpr (List.mem_range.mpr hft)
  · unfold writeFeature
    rw [if_neg (by simp [hsup]), if_neg hmc, if_pos rfl]
    apply List.mem_map.mpr
    refine ⟨l - 1, List.mem_range.mpr (by omega), ?_⟩
    have he : l - 1 + 1 = l := by omega
    rw [he]
    rfl

/-- **C8**: for every well-formed camera, WriteConfigFile followed by
ReadConfigFile on the produced buffer succeeds and restores the camera
exactly (`some (c, …)` returns the original `c`); every supported,
manually settable feature other than the memory channel is set back by
the reader with the recorded flags and parameter values (per GPIO
line for the GPIO feature); and the memory-channel feature is neither
written to the file nor ever set by the reader. -/
theorem c8_config_roundtrip (c : Camera) (hwf : c.wf) :
    readConfigFile c (writeConfigFile c) =
      some (c, readLog c (writeRecords c)) ∧
    (∀ f, f < c.total → c.supported f = true → c.manual f = true →
      f ≠ c.mc → f ≠ c.gpio →
      ({ featureId := f, flags := (c.store f).1, nParams := c.pcount f,
         params := (c.store f).2 } : SetCall) ∈ readLog c (writeRecords c)) ∧
    (∀ l, 1 ≤ l → l ≤ c.numGpios → c.gpio < c.total →
      c.supported c.gpio = true → c.manual c.gpio = true → c.gpio ≠ c.mc →
      ({ featureId := c.gpio, flags := (c.gpioStore l).1,
         nParams := c.pcount c.gpio,
         params := l :: (c.gpioStore l).2 } : SetCall)
        ∈ readLog c (writeRecords c)) ∧
    (∀ r ∈ writeRecords c, r.featureId ≠ c.mc) ∧
    (∀ call ∈ readLog c (writeRecords c), call.featureId ≠ c.mc) := by
  refine ⟨readConfigFile_write c hwf, ?_, ?_,
    fun r hr => writeRecords_no_mc c r hr,
    fun call hc => readLog_no_mc c _ call hc⟩
  · intro f hft hsup hman hmc hng
    have hrec := mem_writeRecords_store c f hft hsup hmc hng
    have hcall := mem_readLog c _ _ hrec ⟨hmc, hman⟩
    simpa [min_self] using hcall
  · intro l h1 h2 hft hsup hman hmc
    have hrec := mem_writeRecords_gpio c l h1 h2 hft hsup hmc
    have hcall := mem_readLog c _ _ hrec ⟨hmc, hman⟩
    simpa [min_self] using hcall

theorem c8_witness :
    readConfigFile camW (writeConfigFile camW) =
      some (camW, readLog camW (writeRecords camW)) ∧
    ({ featureId := 0, flags := 10, nParams := 1, params := [100] } : SetCall)
      ∈ readLog camW (writeRecords camW) ∧
    ({ featureId := 3, flags := 22, nParams := 2, params := [2, 202] } : SetCall)
      ∈ readLog camW (writeRecords camW) := by
  have hwf : camW.wf := by
    refine ⟨by decide, by decide, ?_⟩
    intro l h1 h2
    have h2x : l ≤ 2 := h2
    interval_cases l <;> rfl
  have h := c8_config_roundtrip camW hwf
  refine ⟨h.1, ?_, ?_⟩
  · have h0 := h.2.1 0 (by decide) (by decide) (by decide) (by decide) (by decide)
    simpa [camW] using h0
  · have h3 := h.2.2.1 2 (by decide) (by decide) (by decide) (by decide)
      (by decide) (by decide)
    simpa [camW] using h3

end ConfigFile
